import Mathlib

set_option maxHeartbeats 1000000

/-!
Verification development for the `ephemeris` module `shed_tools_methods.py`.

Python dictionaries are modelled as insertion-ordered association lists with
string keys (`Dict`); Python values as the inductive type `PyVal`.  The
external collaborators (the bioblend tool-shed catalog and the Galaxy
test-execution interactor) do not live in this repository, so they are
modelled as oracle parameters that record only their observable outcomes.
Where the Python code mutates an argument in place, the embedding returns the
final state of that argument explicitly.
-/

namespace ShedTools

/-- Python values that occur in this module: None, str, bool, int and list. -/
inductive PyVal where
  | none : PyVal
  | str : List Char → PyVal
  | bool : Bool → PyVal
  | int : Int → PyVal
  | list : List PyVal → PyVal

/-- Python `v is None`. -/
def isNoneV : PyVal → Bool
  | PyVal.none => true
  | _ => false

/-- Python truthiness of a `PyVal` (used by `if not revisions` and friends). -/
def truthy : PyVal → Bool
  | PyVal.none => false
  | PyVal.str s => !s.isEmpty
  | PyVal.bool b => b
  | PyVal.int n => n != 0
  | PyVal.list xs => !xs.isEmpty

/-- A Python dict: an insertion-ordered association list with string keys. -/
abbrev Dict := List (String × PyVal)

/-- Python `d.get(k)`: the binding of `k`, if any. -/
def dictGet : Dict → String → Option PyVal
  | [], _ => Option.none
  | (k', v) :: d, k => if k' = k then some v else dictGet d k

/-- Python `d.get(k, dflt)`. -/
def dictGetD (d : Dict) (k : String) (dflt : PyVal) : PyVal :=
  (dictGet d k).getD dflt

/-- Python `k in d`. -/
def dictContains (d : Dict) (k : String) : Bool :=
  (dictGet d k).isSome

/-- Python `d[k] = v`: update an existing binding in place or append a new one. -/
def dictSet : Dict → String → PyVal → Dict
  | [], k, v => [(k, v)]
  | (k', v') :: d, k, v => if k' = k then (k, v) :: d else (k', v') :: dictSet d k v

/-- Python `list(d.keys())`. -/
def dictKeys : Dict → List String
  | [] => []
  | kv :: d => kv.1 :: dictKeys d

/-- Python `str.startswith` on character lists. -/
def isPrefixB : List Char → List Char → Bool
  | [], _ => true
  | _ :: _, [] => false
  | a :: as, b :: bs => a == b && isPrefixB as bs

/-- Python `str.endswith` on character lists. -/
def endsWithB (p s : List Char) : Bool := isPrefixB p.reverse s.reverse

/-- The literal `'http'`. -/
def httpChars : List Char := ['h', 't', 't', 'p']

/-- The literal `'https://'`. -/
def httpsSlashChars : List Char := ['h', 't', 't', 'p', 's', ':', '/', '/']

/-- First statement of `format_tool_shed_url`: append a trailing `/` if missing. -/
def withSlashF (s : List Char) : List Char :=
  if endsWithB ['/'] s then s else s ++ ['/']

/-- Embedding of `format_tool_shed_url`: ensure a trailing `/`, then prepend
`https://` when the result does not start with `http`. -/
def format_tool_shed_url (tool_shed_url : List Char) : List Char :=
  if isPrefixB httpChars (withSlashF tool_shed_url) then withSlashF tool_shed_url
  else httpsSlashChars ++ withSlashF tool_shed_url

/-- Exceptions raised by the module's own code paths. -/
inductive PyErr where
  | keyError (msg : String)
  | lookupError (msg : String)
  | typeError (msg : String)
  | attributeError (msg : String)

/-- Python iteration over a value (`for x in v`): lists yield their elements,
strings yield their characters, other values raise TypeError. -/
def pyIterList : PyVal → Except PyErr (List PyVal)
  | PyVal.list xs => Except.ok xs
  | PyVal.str s => Except.ok (s.map (fun c => PyVal.str [c]))
  | _ => Except.error (PyErr.typeError "object is not iterable")

/-- The module constant VALID_KEYS. -/
def VALID_KEYS : List String :=
  ["name", "owner", "changeset_revision", "tool_panel_section_id",
   "tool_panel_section_label", "tool_shed_url", "install_repository_dependencies",
   "install_resolver_dependencies", "install_tool_dependencies"]

/-- The inner loop of `flatten_repo_info`: copy the bindings of `repo_info`
whose key is in VALID_KEYS into a fresh dict, in iteration order. -/
def newRepoInfo (repo_info : Dict) : Dict :=
  List.foldl (fun acc kv => if kv.1 ∈ VALID_KEYS then dictSet acc kv.1 kv.2 else acc)
    [] repo_info

/-- One iteration of the outer loop of `flatten_repo_info`: the output dicts
contributed by a single repository spec.  When `revisions` is present and
truthy, one fresh copy of the filtered dict is produced per revision, with
`changeset_revision` set to that revision; otherwise the filtered dict itself
is the single contribution. -/
def flattenOne (repo_info : Dict) : Except PyErr (List Dict) :=
  if dictContains repo_info "revisions" then
    if truthy (dictGetD repo_info "revisions" (PyVal.list [])) = false then
      Except.ok [newRepoInfo repo_info]
    else
      match pyIterList (dictGetD repo_info "revisions" (PyVal.list [])) with
      | Except.error e => Except.error e
      | Except.ok revs =>
          Except.ok (revs.map (fun revision =>
            dictSet (newRepoInfo repo_info) "changeset_revision" revision))
  else Except.ok [newRepoInfo repo_info]

/-- Embedding of `flatten_repo_info`: concatenate the contributions of the
input elements in order. -/
def flatten_repo_info : List Dict → Except PyErr (List Dict)
  | [] => Except.ok []
  | repo_info :: rest =>
      match flattenOne repo_info with
      | Except.error e => Except.error e
      | Except.ok c =>
          match flatten_repo_info rest with
          | Except.error e => Except.error e
          | Except.ok l => Except.ok (c ++ l)

/-- The per-element contributions of `flatten_repo_info`, kept as separate
blocks (used to state that each input element contributes exactly its own
block of output dicts). -/
def flattenContribs : List Dict → Except PyErr (List (List Dict))
  | [] => Except.ok []
  | r :: rs =>
      match flattenOne r with
      | Except.error e => Except.error e
      | Except.ok c =>
          match flattenContribs rs with
          | Except.error e => Except.error e
          | Except.ok cs => Except.ok (c :: cs)

/-- Example input for the C1 witness: a spec carrying two revisions. -/
def exC1a : Dict :=
  [("name", PyVal.str ['n']), ("revisions", PyVal.list [PyVal.str ['a'], PyVal.str ['b']])]

/-- Example input for the C1 witness: a spec with no `revisions` key. -/
def exC1b : Dict :=
  [("name", PyVal.str ['n']), ("owner", PyVal.str ['o'])]

/-- Example input for the C10 witness. -/
def exC10 : Dict :=
  [("name", PyVal.str ['n']), ("junk", PyVal.int 1),
   ("revisions", PyVal.list [PyVal.str ['a']])]

/-- The external tool-shed catalog, modelled by its only observable effect:
`ToolShedInstance(url).repositories.get_ordered_installable_revisions(name, owner)`.
The function is total: exceptions raised by the catalog itself are outside the
claims under consideration. -/
abbrev Catalog := PyVal → PyVal → PyVal → List PyVal

/-- Embedding of `get_changeset_revisions`.  The Python function assigns
`repository['changeset_revision']` in place and returns that same object, so
the returned dict is also the final state of the caller's argument.  The `Nat`
component counts catalog queries. -/
def get_changeset_revisions (catalog : Catalog) (repository : Dict)
    (force_latest_revision : Bool) : Except PyErr (Dict × Nat) :=
  if isNoneV (dictGetD repository "changeset_revision" PyVal.none)
      || force_latest_revision then
    match dictGet repository "tool_shed_url" with
    | Option.none => Except.error (PyErr.keyError "tool_shed_url")
    | some url =>
      match dictGet repository "name" with
      | Option.none => Except.error (PyErr.keyError "name")
      | some nm =>
        match dictGet repository "owner" with
        | Option.none => Except.error (PyErr.keyError "owner")
        | some ow =>
          match catalog url nm ow with
          | [] => Except.error (PyErr.lookupError "Repo does not exist in tool shed")
          | r :: rs =>
              Except.ok (dictSet repository "changeset_revision"
                ((r :: rs).getLast (List.cons_ne_nil r rs)), 1)
  else Except.ok (repository, 0)

/-- Python `needle in hay` on strings: substring containment. -/
def containsSub (needle : List Char) : List Char → Bool
  | [] => isPrefixB needle []
  | c :: cs => isPrefixB needle (c :: cs) || containsSub needle cs

/-- The literal `'data_manager'`. -/
def dataManagerChars : List Char :=
  ['d', 'a', 't', 'a', '_', 'm', 'a', 'n', 'a', 'g', 'e', 'r']

/-- The panel-placement validation of `complete_repo_information`: when panel
info is required and both section fields are None, a KeyError is raised —
unless `'data_manager' in repo.get('name')`; the containment test itself
raises TypeError when the name is not a string. -/
def panel_check (require_tool_panel_info : Bool) (sec_id sec_label nameV : PyVal) :
    Except PyErr Unit :=
  if require_tool_panel_info && isNoneV sec_id && isNoneV sec_label then
    match nameV with
    | PyVal.str nm =>
        if containsSub dataManagerChars nm then Except.ok ()
        else Except.error (PyErr.keyError
          "Either tool_panel_section_id or tool_panel_section_name must be defined")
    | _ => Except.error (PyErr.typeError "argument of type is not iterable")
  else Except.ok ()

/-- Embedding of `complete_repo_information`: build the repository dict field
by field (name, owner, panel placement, shed URL, changeset revision,
dependency-install flags), validating required fields along the way.  A
non-string `tool_shed_url` would make the Python `endswith` call raise
AttributeError. -/
def complete_repo_information (catalog : Catalog) (tool : Dict)
    (default_toolshed_url : List Char) (require_tool_panel_info : Bool)
    (default_install_tool_dependencies : PyVal)
    (default_install_repository_dependencies : PyVal)
    (default_install_resolver_dependencies : PyVal)
    (force_latest_revision : Bool) : Except PyErr Dict :=
  match dictGet tool "name" with
  | Option.none => Except.error (PyErr.keyError "name")
  | some nameV =>
  match dictGet tool "owner" with
  | Option.none => Except.error (PyErr.keyError "owner")
  | some ownerV =>
  match panel_check require_tool_panel_info
      (dictGetD tool "tool_panel_section_id" PyVal.none)
      (dictGetD tool "tool_panel_section_label" PyVal.none) nameV with
  | Except.error e => Except.error e
  | Except.ok _ =>
  match dictGetD tool "tool_shed_url" (PyVal.str default_toolshed_url) with
  | PyVal.str u =>
      let repo : Dict :=
        dictSet (dictSet (dictSet (dictSet (dictSet (dictSet []
          "name" nameV) "owner" ownerV)
          "tool_panel_section_id" (dictGetD tool "tool_panel_section_id" PyVal.none))
          "tool_panel_section_label" (dictGetD tool "tool_panel_section_label" PyVal.none))
          "tool_shed_url" (PyVal.str (format_tool_shed_url u)))
          "changeset_revision" (dictGetD tool "changeset_revision" PyVal.none)
      match get_changeset_revisions catalog repo force_latest_revision with
      | Except.error e => Except.error e
      | Except.ok (repo2, _) =>
          Except.ok (dictSet (dictSet (dictSet repo2
            "install_repository_dependencies"
              (dictGetD tool "install_repository_dependencies"
                default_install_repository_dependencies))
            "install_resolver_dependencies"
              (dictGetD tool "install_resolver_dependencies"
                default_install_resolver_dependencies))
            "install_tool_dependencies"
              (dictGetD tool "install_tool_dependencies"
                default_install_tool_dependencies))
  | _ => Except.error (PyErr.attributeError "tool_shed_url has no attr endswith")

/-- Whether a computation ended in a raised KeyError. -/
def isKeyError {α : Type} : Except PyErr α → Bool
  | Except.error (PyErr.keyError _) => true
  | _ => false

/-- Whether a computation ended in a raised LookupError. -/
def isLookupError {α : Type} : Except PyErr α → Bool
  | Except.error (PyErr.lookupError _) => true
  | _ => false

/-- Whether a computation returned without raising. -/
def isOkE {α : Type} : Except PyErr α → Bool
  | Except.ok _ => true
  | _ => false

/-- A catalog for concrete runs: one installable revision `z` everywhere. -/
def exCatalogZ : Catalog := fun _ _ _ => [PyVal.str ['z']]

/-- A catalog for concrete runs: no repository exists anywhere. -/
def exCatalogEmpty : Catalog := fun _ _ _ => []

/-- C2 counterexample input: a repository with a pinned revision. -/
def exC2repo : Dict :=
  [("name", PyVal.str ['n']), ("owner", PyVal.str ['o']),
   ("tool_shed_url", PyVal.str ['h', 't', 't', 'p', 's', ':', '/', '/', 'x', '/']),
   ("changeset_revision", PyVal.str ['a'])]

/-- A repository with no pinned revision (used for C2/C5/C6 concrete runs). -/
def exRepoUnpinned : Dict :=
  [("name", PyVal.str ['n']), ("owner", PyVal.str ['o']),
   ("tool_shed_url", PyVal.str ['h', 't', 't', 'p', 's', ':', '/', '/', 'x', '/'])]

/-- C4 counterexample input: a data-manager tool with no panel info. -/
def exC4tool : Dict :=
  [("name", PyVal.str ['d', 'a', 't', 'a', '_', 'm', 'a', 'n', 'a', 'g', 'e', 'r', '_', 'x']),
   ("owner", PyVal.str ['o']),
   ("changeset_revision", PyVal.str ['r'])]

/-- C4 witness input: an ordinary tool with no panel info. -/
def exC4plain : Dict :=
  [("name", PyVal.str ['n']), ("owner", PyVal.str ['o'])]

/-- C8 witness input: a pinned tool carrying name and owner. -/
def exC8tool : Dict :=
  [("name", PyVal.str ['n']), ("owner", PyVal.str ['o']),
   ("changeset_revision", PyVal.str ['r'])]

/-- The repository dict produced from `exC8tool` (C8 witness). -/
def exC8out : Dict :=
  [("name", PyVal.str ['n']), ("owner", PyVal.str ['o']),
   ("tool_panel_section_id", PyVal.none), ("tool_panel_section_label", PyVal.none),
   ("tool_shed_url", PyVal.str ['h', 't', 't', 'p', 's', ':', '/', '/', 'x', '/']),
   ("changeset_revision", PyVal.str ['r']),
   ("install_repository_dependencies", PyVal.bool false),
   ("install_resolver_dependencies", PyVal.bool false),
   ("install_tool_dependencies", PyVal.bool true)]

/-- The module constant DEFAULT_TOOL_TEST_WAIT. -/
def DEFAULT_TOOL_TEST_WAIT : Int := 86400

/-- Events observable during `verify_tool_keep_history`: the calls to
`stage_data_in_history`, `galaxy_interactor.run_tool`, `_verify_outputs` and
`register_job_data`, in execution order. -/
inductive Event where
  | stageCall : Event
  | runCall : Event
  | verifyCall : Event
  | registerCall : Event
  deriving DecidableEq

/-- Outcome of `galaxy_interactor.run_tool` when it raises: either a
RunToolException (which carries the tool inputs) or any other exception. -/
inductive RunErr where
  | runToolException (inputs : PyVal) : RunErr
  | otherError (msg : String) : RunErr

/-- The fields of a tool response read by `verify_tool_keep_history`. -/
structure ToolResponse where
  outputs : List PyVal
  jobs : PyVal
  inputs : PyVal
  output_collections : List PyVal

/-- Outcome of `_verify_outputs` when it raises: either a JobOutputsError
(carrying the job stdio and the list of output exceptions) or any other
exception. -/
inductive VerifyErr where
  | jobOutputsError (job_stdio : PyVal) (output_exceptions : List PyVal) : VerifyErr
  | otherError (msg : String) : VerifyErr

/-- Exceptions that can escape `verify_tool_keep_history`. -/
inductive PyExc where
  | indexError : PyExc
  | defError (msg : String) : PyExc
  | stageExc (msg : String) : PyExc
  | runToolExc (inputs : PyVal) : PyExc
  | runExc (msg : String) : PyExc
  | assertionError : PyExc
  | jobOutputsExc (job_stdio : PyVal) (output_exceptions : List PyVal) : PyExc
  | verifyExc (msg : String) : PyExc

/-- The recorded exception object of a failed tool run, as a value (this is
what `util.unicodify` is applied to for the `execution_problem` field). -/
def runErrVal : RunErr → PyVal
  | RunErr.runToolException _ => PyVal.str ['R', 'u', 'n', 'T', 'o', 'o', 'l']
  | RunErr.otherError msg => PyVal.str msg.toList

/-- The external Galaxy interactor and verification helpers used by
`verify_tool_keep_history`, modelled by the outcomes of their calls (each is
called at most once per invocation).  Arguments that the source merely
forwards to them — resource_parameters, quiet, force_path_paste, the test
history (fresh from `new_history` when the caller passed None) — are absorbed
into these oracles. -/
structure Interactor where
  get_tool_tests : List Dict
  expect_failure_of : Dict → Bool
  handle_def_errors : Except String Unit
  new_history : PyVal
  stage_data : Except String Unit
  run_tool : Except RunErr ToolResponse
  verify_outputs : Except VerifyErr PyVal
  unicodify : PyVal → PyVal

/-- The observable outcome of the try-block of `verify_tool_keep_history`,
together with the values recorded for the finally-block. -/
structure CoreOut where
  result : Except PyExc Unit
  tool_inputs : PyVal
  job_stdio : PyVal
  job_output_exceptions : List PyVal
  tool_execution_exception : Option RunErr
  trace : List Event

/-- The observable result of a run of `verify_tool_keep_history`: the value
returned or exception raised, the records passed to `register_job_data`, the
trace of external calls, and the final state of the caller's
`tool_test_dicts` argument (the function mutates its selected element via
`setdefault`). -/
structure VerifyOut where
  result : Except PyExc Unit
  registered : List Dict
  trace : List Event
  tool_test_dicts_out : Option (List Dict)

/-- The status literal `"success"`. -/
def statusSuccess : PyVal := PyVal.str ['s', 'u', 'c', 'c', 'e', 's', 's']

/-- The status literal `"failure"`. -/
def statusFailure : PyVal := PyVal.str ['f', 'a', 'i', 'l', 'u', 'r', 'e']

/-- The status literal `"error"`. -/
def statusError : PyVal := PyVal.str ['e', 'r', 'r', 'o', 'r']

/-- The try-block of `verify_tool_keep_history`: stage the input data, run the
tool (an expected RunToolException is swallowed, any other exception
propagates), assert that outputs exist, then verify the outputs.  Returns the
block's outcome, the recorded `tool_inputs`, `job_stdio`,
`job_output_exceptions` and `tool_execution_exception` values, and the trace
of external calls made. -/
def verifyCore (itor : Interactor) (expect_failure : Bool) : CoreOut :=
  match itor.stage_data with
  | Except.error msg =>
      { result := Except.error (PyExc.stageExc msg), tool_inputs := PyVal.none,
        job_stdio := PyVal.none, job_output_exceptions := [],
        tool_execution_exception := Option.none, trace := [Event.stageCall] }
  | Except.ok _ =>
    match itor.run_tool with
    | Except.error (RunErr.runToolException inputs) =>
        if expect_failure then
          { result := Except.ok (), tool_inputs := inputs, job_stdio := PyVal.none,
            job_output_exceptions := [],
            tool_execution_exception := some (RunErr.runToolException inputs),
            trace := [Event.stageCall, Event.runCall] }
        else
          { result := Except.error (PyExc.runToolExc inputs), tool_inputs := inputs,
            job_stdio := PyVal.none, job_output_exceptions := [],
            tool_execution_exception := some (RunErr.runToolException inputs),
            trace := [Event.stageCall, Event.runCall] }
    | Except.error (RunErr.otherError msg) =>
        { result := Except.error (PyExc.runExc msg), tool_inputs := PyVal.none,
          job_stdio := PyVal.none, job_output_exceptions := [],
          tool_execution_exception := some (RunErr.otherError msg),
          trace := [Event.stageCall, Event.runCall] }
    | Except.ok resp =>
        if resp.outputs.isEmpty && resp.output_collections.isEmpty then
          { result := Except.error PyExc.assertionError, tool_inputs := resp.inputs,
            job_stdio := PyVal.none, job_output_exceptions := [],
            tool_execution_exception := Option.none,
            trace := [Event.stageCall, Event.runCall] }
        else
          match itor.verify_outputs with
          | Except.ok js =>
              { result := Except.ok (), tool_inputs := resp.inputs, job_stdio := js,
                job_output_exceptions := [], tool_execution_exception := Option.none,
                trace := [Event.stageCall, Event.runCall, Event.verifyCall] }
          | Except.error (VerifyErr.jobOutputsError js excs) =>
              { result := Except.error (PyExc.jobOutputsExc js excs),
                tool_inputs := resp.inputs, job_stdio := js,
                job_output_exceptions := excs, tool_execution_exception := Option.none,
                trace := [Event.stageCall, Event.runCall, Event.verifyCall] }
          | Except.error (VerifyErr.otherError msg) =>
              { result := Except.error (PyExc.verifyExc msg), tool_inputs := resp.inputs,
                job_stdio := PyVal.none, job_output_exceptions := [PyVal.str msg.toList],
                tool_execution_exception := Option.none,
                trace := [Event.stageCall, Event.runCall, Event.verifyCall] }

/-- The finally-block of `verify_tool_keep_history`: assemble the `job_data`
record from the recorded values.  `inputs`/`job` are added only when not
None, `output_problems` when output exceptions were recorded (setting status
to failure), `execution_problem` when the run raised (setting status to
error, which therefore takes precedence), and `status` last. -/
def buildJobData (itor : Interactor) (tool_id tool_version : PyVal) (test_index : Nat)
    (begin_time end_time : Int) (tool_inputs job_stdio : PyVal)
    (job_output_exceptions : List PyVal) (tool_execution_exception : Option RunErr) :
    Dict :=
  let jd : Dict :=
    [("tool_id", tool_id), ("tool_version", tool_version),
     ("test_index", PyVal.int (Int.ofNat test_index)),
     ("time_seconds", PyVal.int (end_time - begin_time))]
  let jd := if isNoneV tool_inputs then jd else dictSet jd "inputs" tool_inputs
  let jd := if isNoneV job_stdio then jd else dictSet jd "job" job_stdio
  let jd := if job_output_exceptions.isEmpty then jd
    else dictSet jd "output_problems"
      (PyVal.list (job_output_exceptions.map itor.unicodify))
  let status1 : PyVal := if job_output_exceptions.isEmpty then statusSuccess
    else statusFailure
  let jd := match tool_execution_exception with
    | Option.none => jd
    | some e => dictSet jd "execution_problem" (itor.unicodify (runErrVal e))
  let status2 : PyVal := match tool_execution_exception with
    | Option.none => status1
    | some _ => statusError
  dictSet jd "status" status2

/-- Python `tool_test_dicts or galaxy_interactor.get_tool_tests(...)`: use the
caller's list when truthy, else fetch from the interactor. -/
def selectedTestDicts (itor : Interactor) (tool_test_dicts : Option (List Dict)) :
    List Dict :=
  match tool_test_dicts with
  | some (d :: ds) => d :: ds
  | _ => itor.get_tool_tests

/-- Python `tool_test_dict.setdefault('maxseconds', maxseconds)`. -/
def setdefaultMax (d : Dict) (maxseconds : PyVal) : Dict :=
  if dictContains d "maxseconds" then d else dictSet d "maxseconds" maxseconds

/-- Embedding of `verify_tool_keep_history`.  The external calls are modelled
by their outcome oracles in `itor`; `register_job_data` is modelled by whether
it was supplied (`None` or not), with the records passed to it returned in
`registered`; the two `time.time()` readings are `begin_time`/`end_time`.
Selecting a test out of range raises IndexError before the try-block, and
`_handle_def_errors` may raise before it as well: in both cases nothing is
registered. -/
def verify_tool_keep_history (itor : Interactor) (tool_id : PyVal)
    (register_job_data : Bool) (test_index : Nat) (tool_version : PyVal)
    (maxseconds : PyVal) (tool_test_dicts : Option (List Dict))
    (begin_time end_time : Int) : VerifyOut :=
  let ttds := selectedTestDicts itor tool_test_dicts
  let usingCaller := match tool_test_dicts with
    | some (_ :: _) => true
    | _ => false
  match ttds[test_index]? with
  | Option.none =>
      { result := Except.error PyExc.indexError, registered := [], trace := [],
        tool_test_dicts_out := tool_test_dicts }
  | some tool_test_dict0 =>
      let tool_test_dict := setdefaultMax tool_test_dict0 maxseconds
      let ttds_out := if usingCaller then some (ttds.set test_index tool_test_dict)
        else tool_test_dicts
      match itor.handle_def_errors with
      | Except.error msg =>
          { result := Except.error (PyExc.defError msg), registered := [], trace := [],
            tool_test_dicts_out := ttds_out }
      | Except.ok _ =>
          let core := verifyCore itor (itor.expect_failure_of tool_test_dict)
          { result := core.result,
            registered := if register_job_data then
              [buildJobData itor tool_id tool_version test_index begin_time end_time
                core.tool_inputs core.job_stdio core.job_output_exceptions
                core.tool_execution_exception]
              else [],
            trace := core.trace ++ (if register_job_data then [Event.registerCall] else []),
            tool_test_dicts_out := ttds_out }

/-- A concrete interactor where every external call succeeds. -/
def exItor : Interactor :=
  { get_tool_tests := [],
    expect_failure_of := fun _ => false,
    handle_def_errors := Except.ok (),
    new_history := PyVal.none,
    stage_data := Except.ok (),
    run_tool := Except.ok (ToolResponse.mk [PyVal.str ['x']] PyVal.none PyVal.none []),
    verify_outputs := Except.ok PyVal.none,
    unicodify := fun v => v }

-- ### Basic dictionary lemmas

theorem dictGet_set_self (d : Dict) (k : String) (v : PyVal) :
    dictGet (dictSet d k v) k = some v := by
  induction d with
  | nil => simp [dictSet, dictGet]
  | cons kv d ih =>
      obtain ⟨k', v'⟩ := kv
      by_cases h : k' = k
      · simp [dictSet, dictGet, h]
      · simp [dictSet, dictGet, h, ih]

theorem dictGet_set_ne (d : Dict) (k k' : String) (v : PyVal) (h : k' ≠ k) :
    dictGet (dictSet d k' v) k = dictGet d k := by
  induction d with
  | nil => simp [dictSet, dictGet, h]
  | cons kv d ih =>
      obtain ⟨k'', v''⟩ := kv
      by_cases h2 : k'' = k'
      · subst h2
        simp [dictSet, dictGet, h, ih]
      · simp [dictSet, dictGet, h2, ih]

theorem not_mem_keys_of_dictGet_none (d : Dict) (k : String)
    (h : dictGet d k = Option.none) : k ∉ dictKeys d := by
  induction d with
  | nil => simp [dictKeys]
  | cons kv d ih =>
      obtain ⟨k', v'⟩ := kv
      by_cases h2 : k' = k
      · simp [dictGet, h2] at h
      · simp [dictGet, h2] at h
        intro hmem
        simp [dictKeys] at hmem
        rcases hmem with h3 | h3
        · exact h2 h3.symm
        · exact (ih h) h3

theorem mem_keys_set (d : Dict) (k a : String) (v : PyVal)
    (h : a ∈ dictKeys (dictSet d k v)) : a = k ∨ a ∈ dictKeys d := by
  induction d with
  | nil =>
      simp [dictSet, dictKeys] at h
      exact Or.inl h
  | cons kv d ih =>
      obtain ⟨k', v'⟩ := kv
      by_cases h2 : k' = k
      · simp [dictSet, dictKeys, h2] at h
        rcases h with h | h
        · exact Or.inl h
        · exact Or.inr (by simp [dictKeys, h])
      · simp [dictSet, dictKeys, h2] at h
        rcases h with h | h
        · exact Or.inr (by simp [dictKeys, h])
        · rcases ih h with h3 | h3
          · exact Or.inl h3
          · exact Or.inr (by simp [dictKeys]; exact Or.inr h3)

-- ### String-normalisation lemmas for format_tool_shed_url

theorem endsWithB_append_slash (s : List Char) :
    endsWithB ['/'] (s ++ ['/']) = true := by
  simp [endsWithB, List.reverse_append, isPrefixB]

theorem endsWithB_slash_append (p s : List Char) (h : endsWithB ['/'] s = true) :
    endsWithB ['/'] (p ++ s) = true := by
  unfold endsWithB at *
  cases hs : s.reverse with
  | nil => rw [hs] at h; simp [isPrefixB] at h
  | cons c t =>
      rw [hs] at h
      simp [isPrefixB] at h
      rw [List.reverse_append, hs]
      subst h
      simp [isPrefixB]

theorem isPrefixB_http_https (l : List Char) :
    isPrefixB httpChars (httpsSlashChars ++ l) = true := by
  simp [httpChars, httpsSlashChars, isPrefixB]

theorem isPrefixB_append (p s t : List Char) (h : isPrefixB p s = true) :
    isPrefixB p (s ++ t) = true := by
  induction p generalizing s with
  | nil => simp [isPrefixB]
  | cons a as ih =>
      cases s with
      | nil => simp [isPrefixB] at h
      | cons b bs =>
          simp [isPrefixB] at h
          simp [isPrefixB, h.1]
          exact ih bs h.2

theorem isPrefixB_append_of_not_mem (p : List Char) (c : Char) (hc : c ∉ p) :
    ∀ s, isPrefixB p s = false → isPrefixB p (s ++ [c]) = false := by
  induction p with
  | nil => intro s h; simp [isPrefixB] at h
  | cons a as ih =>
      intro s h
      cases s with
      | nil =>
          have hac : ¬a = c := fun he => hc (by simp [he])
          simp [isPrefixB, hac]
      | cons b bs =>
          simp only [isPrefixB, List.cons_append]
          simp only [isPrefixB] at h
          by_cases hab : a = b
          · subst hab
            simp only [beq_self_eq_true, Bool.true_and] at h ⊢
            exact ih (fun hm => hc (List.mem_cons_of_mem _ hm)) bs h
          · simp [hab]

theorem withSlashF_ends (s : List Char) : endsWithB ['/'] (withSlashF s) = true := by
  by_cases h : endsWithB ['/'] s
  · simp [withSlashF, h]
  · simp [withSlashF, h, endsWithB_append_slash]

theorem format_tool_shed_url_ends_slash (s : List Char) :
    endsWithB ['/'] (format_tool_shed_url s) = true := by
  unfold format_tool_shed_url
  by_cases h2 : isPrefixB httpChars (withSlashF s) = true
  · simp only [h2, if_true]
    exact withSlashF_ends s
  · simp only [h2, if_false]
    exact endsWithB_slash_append _ _ (withSlashF_ends s)

theorem format_tool_shed_url_starts_http (s : List Char) :
    isPrefixB httpChars (format_tool_shed_url s) = true := by
  unfold format_tool_shed_url
  by_cases h2 : isPrefixB httpChars (withSlashF s) = true
  · simp only [h2, if_true]
  · simp only [h2, if_false]
    exact isPrefixB_http_https _

theorem format_tool_shed_url_fixed (t : List Char)
    (h1 : endsWithB ['/'] t = true) (h2 : isPrefixB httpChars t = true) :
    format_tool_shed_url t = t := by
  have hw : withSlashF t = t := by simp [withSlashF, h1]
  unfold format_tool_shed_url
  rw [hw, if_pos h2]

theorem isPrefixB_withSlashF_false (s : List Char)
    (h : isPrefixB httpChars s = false) :
    isPrefixB httpChars (withSlashF s) = false := by
  unfold withSlashF
  by_cases h1 : endsWithB ['/'] s = true
  · simp only [h1, if_true]; exact h
  · simp only [h1, if_false]
    exact isPrefixB_append_of_not_mem httpChars '/' (by decide) s h

theorem isPrefixB_withSlashF_true (s : List Char)
    (h : isPrefixB httpChars s = true) :
    isPrefixB httpChars (withSlashF s) = true := by
  unfold withSlashF
  by_cases h1 : endsWithB ['/'] s = true
  · simp only [h1, if_true]; exact h
  · simp only [h1, if_false]
    exact isPrefixB_append _ _ _ h

-- ### Lemmas about newRepoInfo and flatten_repo_info

theorem fst_mem_dictKeys (d : Dict) (kv : String × PyVal) (h : kv ∈ d) :
    kv.1 ∈ dictKeys d := by
  induction d with
  | nil => simp at h
  | cons kv' rest ih =>
      rcases List.mem_cons.mp h with h | h
      · subst h; simp [dictKeys]
      · simp [dictKeys]; exact Or.inr (ih h)

theorem keys_copyLoop (l : Dict) :
    ∀ acc : Dict, (∀ a, a ∈ dictKeys acc → a ∈ VALID_KEYS) →
      ∀ a, a ∈ dictKeys (List.foldl
          (fun acc kv => if kv.1 ∈ VALID_KEYS then dictSet acc kv.1 kv.2 else acc) acc l) →
        a ∈ VALID_KEYS := by
  induction l with
  | nil => intro acc hacc a ha; exact hacc a ha
  | cons kv rest ih =>
      intro acc hacc a ha
      simp only [List.foldl_cons] at ha
      refine ih _ ?_ a ha
      intro b hb
      by_cases hk : kv.1 ∈ VALID_KEYS
      · rw [if_pos hk] at hb
        rcases mem_keys_set acc kv.1 b kv.2 hb with h | h
        · exact h ▸ hk
        · exact hacc b h
      · rw [if_neg hk] at hb
        exact hacc b hb

theorem newRepoInfo_keys (r : Dict) :
    ∀ a, a ∈ dictKeys (newRepoInfo r) → a ∈ VALID_KEYS :=
  keys_copyLoop r [] (by intro a ha; simp [dictKeys] at ha)

theorem copyLoop_get_none (k : String) (l : Dict) :
    ∀ acc : Dict, (∀ kv, kv ∈ l → kv.1 ≠ k) → dictGet acc k = Option.none →
      dictGet (List.foldl
          (fun acc kv => if kv.1 ∈ VALID_KEYS then dictSet acc kv.1 kv.2 else acc) acc l) k
        = Option.none := by
  induction l with
  | nil => intro acc _ hacc; exact hacc
  | cons kv rest ih =>
      intro acc hl hacc
      simp only [List.foldl_cons]
      refine ih _ (fun kv' h => hl kv' (List.mem_cons_of_mem _ h)) ?_
      by_cases hk : kv.1 ∈ VALID_KEYS
      · rw [if_pos hk]
        rw [dictGet_set_ne acc k kv.1 kv.2 (hl kv (List.mem_cons_self _ _))]
        exact hacc
      · rw [if_neg hk]; exact hacc

theorem newRepoInfo_get_none (r : Dict) (k : String)
    (h : dictGet r k = Option.none) :
    dictGet (newRepoInfo r) k = Option.none := by
  have hmem := not_mem_keys_of_dictGet_none r k h
  refine copyLoop_get_none k r [] ?_ rfl
  intro kv hkv he
  exact hmem (he ▸ fst_mem_dictKeys r kv hkv)

theorem flattenOne_of_list_revs (r : Dict) (revs : List PyVal)
    (h : dictGet r "revisions" = some (PyVal.list revs)) (hne : revs ≠ []) :
    flattenOne r = Except.ok (revs.map (fun revision =>
      dictSet (newRepoInfo r) "changeset_revision" revision)) := by
  have hc : dictContains r "revisions" = true := by simp [dictContains, h]
  have hd : dictGetD r "revisions" (PyVal.list []) = PyVal.list revs := by
    simp [dictGetD, h]
  have hie : revs.isEmpty = false := by
    cases revs with
    | nil => exact absurd rfl hne
    | cons x xs => rfl
  have ht : truthy (dictGetD r "revisions" (PyVal.list [])) = true := by
    rw [hd]; simp [truthy, hie]
  rw [flattenOne, if_pos hc, if_neg (by rw [ht]; simp), hd]
  rfl

theorem flattenOne_of_no_revs (r : Dict)
    (h : dictGet r "revisions" = Option.none ∨ dictGet r "revisions" = some PyVal.none
        ∨ dictGet r "revisions" = some (PyVal.list [])) :
    flattenOne r = Except.ok [newRepoInfo r] := by
  rcases h with h | h | h
  · have hc : dictContains r "revisions" = false := by simp [dictContains, h]
    rw [flattenOne, if_neg (by rw [hc]; simp)]
  · have hc : dictContains r "revisions" = true := by simp [dictContains, h]
    have hd : dictGetD r "revisions" (PyVal.list []) = PyVal.none := by
      simp [dictGetD, h]
    rw [flattenOne, if_pos hc, if_pos (by rw [hd]; rfl)]
  · have hc : dictContains r "revisions" = true := by simp [dictContains, h]
    have hd : dictGetD r "revisions" (PyVal.list []) = PyVal.list [] := by
      simp [dictGetD, h]
    rw [flattenOne, if_pos hc, if_pos (by rw [hd]; rfl)]

theorem flatten_eq_contribs (rs : List Dict) :
    flatten_repo_info rs = (flattenContribs rs).map List.flatten := by
  induction rs with
  | nil => rfl
  | cons r rest ih =>
      rw [flatten_repo_info, flattenContribs]
      cases hf : flattenOne r with
      | error e => rfl
      | ok c =>
          rw [ih]
          cases hc : flattenContribs rest with
          | error e => rfl
          | ok cs => simp [Except.map]

theorem flattenOne_keys (r : Dict) (c : List Dict) (h : flattenOne r = Except.ok c) :
    ∀ d, d ∈ c → ∀ k, k ∈ dictKeys d → k ∈ VALID_KEYS := by
  intro d hd k hk
  by_cases h1 : dictContains r "revisions" = true
  · rw [flattenOne, if_pos h1] at h
    by_cases h2 : truthy (dictGetD r "revisions" (PyVal.list [])) = false
    · rw [if_pos h2] at h
      cases h
      rcases List.mem_singleton.mp hd with h3
      exact newRepoInfo_keys r k (h3 ▸ hk)
    · rw [if_neg h2] at h
      cases hp : pyIterList (dictGetD r "revisions" (PyVal.list [])) with
      | error e => rw [hp] at h; cases h
      | ok revs =>
          rw [hp] at h
          cases h
          rcases List.mem_map.mp hd with ⟨rev, _, hrev⟩
          subst hrev
          rcases mem_keys_set (newRepoInfo r) "changeset_revision" k rev hk with h3 | h3
          · subst h3; decide
          · exact newRepoInfo_keys r k h3
  · rw [flattenOne, if_neg (by rw [eq_false_of_ne_true h1]; simp)] at h
    cases h
    rcases List.mem_singleton.mp hd with h3
    exact newRepoInfo_keys r k (h3 ▸ hk)

-- ### Claim theorems for format_tool_shed_url and flatten_repo_info

/-- C9: `format_tool_shed_url` is normalizing and idempotent: the result always
ends with `/` and starts with `http`; `https://` is prepended exactly when the
input does not already start with `http`; and the function is idempotent. -/
theorem C9_format_tool_shed_url_normalizing (s : List Char) :
    endsWithB ['/'] (format_tool_shed_url s) = true
    ∧ isPrefixB httpChars (format_tool_shed_url s) = true
    ∧ (isPrefixB httpChars s = true → format_tool_shed_url s = withSlashF s)
    ∧ (isPrefixB httpChars s = false →
        format_tool_shed_url s = httpsSlashChars ++ withSlashF s)
    ∧ format_tool_shed_url (format_tool_shed_url s) = format_tool_shed_url s := by
  refine ⟨format_tool_shed_url_ends_slash s, format_tool_shed_url_starts_http s, ?_, ?_, ?_⟩
  · intro h
    rw [format_tool_shed_url, if_pos (isPrefixB_withSlashF_true s h)]
  · intro h
    rw [format_tool_shed_url, if_neg (by rw [isPrefixB_withSlashF_false s h]; simp)]
  · exact format_tool_shed_url_fixed (format_tool_shed_url s)
      (format_tool_shed_url_ends_slash s) (format_tool_shed_url_starts_http s)

/-- Witness for C9 at concrete inputs: a bare host gets `https://` and a
trailing slash; an already-normalized URL is a fixed point. -/
theorem C9_format_tool_shed_url_normalizing_witness :
    format_tool_shed_url ['x'] = httpsSlashChars ++ withSlashF ['x']
    ∧ format_tool_shed_url httpsSlashChars = withSlashF httpsSlashChars :=
  ⟨(C9_format_tool_shed_url_normalizing ['x']).2.2.2.1 (by decide),
   (C9_format_tool_shed_url_normalizing httpsSlashChars).2.2.1 (by decide)⟩

/-- C1: `flatten_repo_info` emits one output dict per (repository, revision)
pair: the output is the concatenation of per-element contribution blocks; an
element with a non-empty `revisions` list contributes one dict per revision,
the i-th carrying the i-th revision as `changeset_revision`; an element with
no `revisions` key, or with `revisions` None or `[]`, contributes exactly one
dict, with no `changeset_revision` added. -/
theorem C1_flatten_repo_info_per_revision :
    (∀ rs, flatten_repo_info rs = (flattenContribs rs).map List.flatten)
    ∧ (∀ r revs, dictGet r "revisions" = some (PyVal.list revs) → revs ≠ [] →
        flattenOne r = Except.ok (revs.map (fun revision =>
          dictSet (newRepoInfo r) "changeset_revision" revision))
        ∧ ∀ i : Nat, ((revs.map (fun revision =>
              dictSet (newRepoInfo r) "changeset_revision" revision))[i]?).map
            (fun d => dictGet d "changeset_revision")
          = (revs[i]?).map (fun rev => some rev))
    ∧ (∀ r, (dictGet r "revisions" = Option.none
            ∨ dictGet r "revisions" = some PyVal.none
            ∨ dictGet r "revisions" = some (PyVal.list [])) →
        flattenOne r = Except.ok [newRepoInfo r]
        ∧ (dictGet r "changeset_revision" = Option.none →
            dictGet (newRepoInfo r) "changeset_revision" = Option.none)) := by
  refine ⟨flatten_eq_contribs, ?_, ?_⟩
  · intro r revs h hne
    refine ⟨flattenOne_of_list_revs r revs h hne, ?_⟩
    intro i
    rw [List.getElem?_map]
    cases hi : revs[i]? with
    | none => rfl
    | some rev => simp [dictGet_set_self]
  · intro r h
    exact ⟨flattenOne_of_no_revs r h,
      fun h2 => newRepoInfo_get_none r "changeset_revision" h2⟩

/-- Witness for C1 at concrete inputs: a two-revision spec contributes two
dicts carrying the respective revisions; a spec without `revisions`
contributes exactly one dict without `changeset_revision`. -/
theorem C1_flatten_repo_info_per_revision_witness :
    flattenOne exC1a = Except.ok ([PyVal.str ['a'], PyVal.str ['b']].map
      (fun revision => dictSet (newRepoInfo exC1a) "changeset_revision" revision))
    ∧ flattenOne exC1b = Except.ok [newRepoInfo exC1b]
    ∧ dictGet (newRepoInfo exC1b) "changeset_revision" = Option.none :=
  ⟨(C1_flatten_repo_info_per_revision.2.1 exC1a [PyVal.str ['a'], PyVal.str ['b']]
      rfl (by simp)).1,
   (C1_flatten_repo_info_per_revision.2.2 exC1b (Or.inl rfl)).1,
   (C1_flatten_repo_info_per_revision.2.2 exC1b (Or.inl rfl)).2 rfl⟩

/-- C10: every dict produced by `flatten_repo_info` only carries keys from
VALID_KEYS; in particular keys of the input such as `revisions` are dropped. -/
theorem C10_flatten_repo_info_valid_keys (rs : List Dict) (out : List Dict)
    (h : flatten_repo_info rs = Except.ok out) :
    ∀ d, d ∈ out → ∀ k, k ∈ dictKeys d → k ∈ VALID_KEYS := by
  induction rs generalizing out with
  | nil =>
      rw [flatten_repo_info] at h
      cases h
      intro d hd
      simp at hd
  | cons r rest ih =>
      rw [flatten_repo_info] at h
      cases hf : flattenOne r with
      | error e => rw [hf] at h; cases h
      | ok c =>
          rw [hf] at h
          cases hr : flatten_repo_info rest with
          | error e => rw [hr] at h; cases h
          | ok l =>
              rw [hr] at h
              cases h
              intro d hd k hk
              rcases List.mem_append.mp hd with hd | hd
              · exact flattenOne_keys r c hf d hd k hk
              · exact ih l hr d hd k hk

/-- Witness for C10 at a concrete input: the `junk` and `revisions` keys of
the input are dropped, every remaining key is in VALID_KEYS. -/
theorem C10_flatten_repo_info_valid_keys_witness :
    ("changeset_revision" : String) ∈ VALID_KEYS :=
  C10_flatten_repo_info_valid_keys [exC10]
    [[("name", PyVal.str ['n']), ("changeset_revision", PyVal.str ['a'])]] rfl
    [("name", PyVal.str ['n']), ("changeset_revision", PyVal.str ['a'])]
    (List.mem_singleton.mpr rfl) "changeset_revision" (by decide)

-- ### Lemmas about get_changeset_revisions and complete_repo_information

theorem get_changeset_revisions_preserves (catalog : Catalog) (repo : Dict)
    (force : Bool) (repo2 : Dict) (n : Nat) (k : String)
    (hk : k ≠ "changeset_revision")
    (h : get_changeset_revisions catalog repo force = Except.ok (repo2, n)) :
    dictGet repo2 k = dictGet repo k := by
  rw [get_changeset_revisions] at h
  by_cases hcond : (isNoneV (dictGetD repo "changeset_revision" PyVal.none) || force) = true
  · rw [if_pos hcond] at h
    cases hu : dictGet repo "tool_shed_url" with
    | none => simp [hu] at h
    | some url =>
        cases hn : dictGet repo "name" with
        | none => simp [hu, hn] at h
        | some nm =>
            cases ho : dictGet repo "owner" with
            | none => simp [hu, hn, ho] at h
            | some ow =>
                cases hc : catalog url nm ow with
                | nil => simp [hu, hn, ho, hc] at h
                | cons r rs =>
                    simp only [hu, hn, ho, hc, Except.ok.injEq, Prod.mk.injEq] at h
                    rw [← h.1]
                    exact dictGet_set_ne repo k "changeset_revision" _ (fun he => hk he.symm)
  · rw [if_neg hcond] at h
    cases h
    rfl

theorem get_changeset_revisions_unpinned (catalog : Catalog) (repository : Dict)
    (force : Bool) (url nm ow rev : PyVal)
    (h1 : isNoneV (dictGetD repository "changeset_revision" PyVal.none) = true)
    (h2 : dictGet repository "tool_shed_url" = some url)
    (h3 : dictGet repository "name" = some nm)
    (h4 : dictGet repository "owner" = some ow)
    (h5 : (catalog url nm ow).getLast? = some rev) :
    get_changeset_revisions catalog repository force
      = Except.ok (dictSet repository "changeset_revision" rev, 1) := by
  rw [get_changeset_revisions, if_pos (by rw [h1]; rfl)]
  cases hc : catalog url nm ow with
  | nil => rw [hc] at h5; cases h5
  | cons r rs =>
      rw [hc] at h5
      rw [List.getLast?_eq_getLast_of_ne_nil (List.cons_ne_nil r rs)] at h5
      simp only [Option.some.injEq] at h5
      simp only [h2, h3, h4, hc]
      rw [h5]

-- ### Claim theorems for get_changeset_revisions (C2, C6)

/-- Counterexample to C2 as stated: with `force_latest_revision` set, a
repository whose `changeset_revision` is already pinned is still resolved
against the catalog (one query) and the pinned revision is overwritten. -/
theorem C2_get_changeset_revisions_counterexample :
    dictGet exC2repo "changeset_revision" = some (PyVal.str ['a'])
    ∧ get_changeset_revisions exCatalogZ exC2repo true
      = Except.ok ([("name", PyVal.str ['n']), ("owner", PyVal.str ['o']),
          ("tool_shed_url", PyVal.str ['h', 't', 't', 'p', 's', ':', '/', '/', 'x', '/']),
          ("changeset_revision", PyVal.str ['z'])], 1) :=
  ⟨rfl, rfl⟩

/-- C2 amended: unless `force_latest_revision` is set, a repository with a
pinned `changeset_revision` is returned unchanged with no catalog query; a
repository whose `changeset_revision` is None (or absent) gets the last
element of the catalog's ordered installable-revision list for its name and
owner, with exactly one catalog query. -/
theorem C2_get_changeset_revisions_amended (catalog : Catalog) (repository : Dict) :
    (∀ v, dictGet repository "changeset_revision" = some v → isNoneV v = false →
      get_changeset_revisions catalog repository false = Except.ok (repository, 0))
    ∧ (∀ (force : Bool) (url nm ow rev : PyVal),
        isNoneV (dictGetD repository "changeset_revision" PyVal.none) = true →
        dictGet repository "tool_shed_url" = some url →
        dictGet repository "name" = some nm →
        dictGet repository "owner" = some ow →
        (catalog url nm ow).getLast? = some rev →
        get_changeset_revisions catalog repository force
          = Except.ok (dictSet repository "changeset_revision" rev, 1)) := by
  constructor
  · intro v hv hnone
    have hcond : (isNoneV (dictGetD repository "changeset_revision" PyVal.none)
        || false) = false := by
      simp [dictGetD, hv, hnone]
    rw [get_changeset_revisions, if_neg (by rw [hcond]; simp)]
  · intro force url nm ow rev h1 h2 h3 h4 h5
    exact get_changeset_revisions_unpinned catalog repository force url nm ow rev
      h1 h2 h3 h4 h5

/-- Witness for the amended C2 at concrete inputs: the pinned repository
passes through untouched; the unpinned one gets the catalog's revision. -/
theorem C2_get_changeset_revisions_amended_witness :
    get_changeset_revisions exCatalogZ exC2repo false = Except.ok (exC2repo, 0)
    ∧ get_changeset_revisions exCatalogZ exRepoUnpinned false
      = Except.ok (dictSet exRepoUnpinned "changeset_revision" (PyVal.str ['z']), 1) :=
  ⟨(C2_get_changeset_revisions_amended exCatalogZ exC2repo).1 (PyVal.str ['a']) rfl rfl,
   (C2_get_changeset_revisions_amended exCatalogZ exRepoUnpinned).2 false
     (PyVal.str ['h', 't', 't', 'p', 's', ':', '/', '/', 'x', '/'])
     (PyVal.str ['n']) (PyVal.str ['o']) (PyVal.str ['z']) rfl rfl rfl rfl rfl⟩

/-- Counterexample to C6: `get_changeset_revisions` raises a LookupError of
its own when the catalog — which itself returns normally, with an empty
list — lists no installable revisions; the error originates in this module,
not in an external service. -/
theorem C6_module_raises_counterexample :
    get_changeset_revisions exCatalogEmpty exRepoUnpinned false
      = Except.error (PyErr.lookupError "Repo does not exist in tool shed") :=
  rfl

/-- C6 amended: besides propagating exceptions of the external services, the
module raises its own errors: `get_changeset_revisions` raises LookupError
whenever the catalog returns no installable revisions (and KeyError for
missing required keys; `complete_repo_information` likewise raises its own
KeyError for missing name/owner or missing panel info). -/
theorem C6_module_raises_amended (catalog : Catalog) (repository : Dict)
    (force : Bool) (url nm ow : PyVal)
    (h1 : isNoneV (dictGetD repository "changeset_revision" PyVal.none) = true)
    (h2 : dictGet repository "tool_shed_url" = some url)
    (h3 : dictGet repository "name" = some nm)
    (h4 : dictGet repository "owner" = some ow)
    (h5 : catalog url nm ow = []) :
    isLookupError (get_changeset_revisions catalog repository force) = true := by
  rw [get_changeset_revisions, if_pos (by rw [h1]; rfl)]
  simp [h2, h3, h4, h5, isLookupError]

/-- Witness for the amended C6 at a concrete input. -/
theorem C6_module_raises_amended_witness :
    isLookupError (get_changeset_revisions exCatalogEmpty exRepoUnpinned false) = true :=
  C6_module_raises_amended exCatalogEmpty exRepoUnpinned false
    (PyVal.str ['h', 't', 't', 'p', 's', ':', '/', '/', 'x', '/'])
    (PyVal.str ['n']) (PyVal.str ['o']) rfl rfl rfl rfl rfl

-- ### Claim theorems for complete_repo_information (C4, C8)

/-- Counterexample to C4 as stated: a tool whose name contains `data_manager`
defines neither panel section field, yet `complete_repo_information` with
`require_tool_panel_info = true` returns normally instead of raising. -/
theorem C4_panel_required_counterexample :
    dictGet exC4tool "tool_panel_section_id" = Option.none
    ∧ dictGet exC4tool "tool_panel_section_label" = Option.none
    ∧ isOkE (complete_repo_information exCatalogZ exC4tool
        ['h', 't', 't', 'p', 's', ':', '/', '/', 'x', '/'] true
        PyVal.none PyVal.none PyVal.none false) = true :=
  ⟨rfl, rfl, rfl⟩

/-- C4 amended: with `require_tool_panel_info = true`, a KeyError is raised
for every tool dict that defines neither `tool_panel_section_id` nor
`tool_panel_section_label` — unless the tool's name contains the substring
`data_manager`. -/
theorem C4_panel_required_amended (catalog : Catalog) (tool : Dict)
    (default_toolshed_url : List Char) (d1 d2 d3 : PyVal) (force : Bool)
    (nm : List Char) (ownerV : PyVal)
    (hname : dictGet tool "name" = some (PyVal.str nm))
    (howner : dictGet tool "owner" = some ownerV)
    (h1 : isNoneV (dictGetD tool "tool_panel_section_id" PyVal.none) = true)
    (h2 : isNoneV (dictGetD tool "tool_panel_section_label" PyVal.none) = true)
    (h3 : containsSub dataManagerChars nm = false) :
    isKeyError (complete_repo_information catalog tool default_toolshed_url true
      d1 d2 d3 force) = true := by
  have hpc : panel_check true (dictGetD tool "tool_panel_section_id" PyVal.none)
      (dictGetD tool "tool_panel_section_label" PyVal.none) (PyVal.str nm)
      = Except.error (PyErr.keyError
        "Either tool_panel_section_id or tool_panel_section_name must be defined") := by
    rw [panel_check.eq_def, if_pos (by rw [h1, h2]; rfl)]
    simp [h3]
  simp [complete_repo_information, hname, howner, hpc, isKeyError]

/-- Witness for the amended C4 at a concrete input: an ordinary tool without
panel info makes the call raise KeyError. -/
theorem C4_panel_required_amended_witness :
    isKeyError (complete_repo_information exCatalogZ exC4plain
      ['x'] true PyVal.none PyVal.none PyVal.none false) = true :=
  C4_panel_required_amended exCatalogZ exC4plain ['x']
    PyVal.none PyVal.none PyVal.none false ['n'] (PyVal.str ['o'])
    rfl rfl rfl rfl rfl

/-- C8: `complete_repo_information` raises KeyError when `name` or `owner` is
missing; when both are present and the call returns a repository dict, the
two values are copied into it unchanged. -/
theorem C8_name_owner_required (catalog : Catalog) (tool : Dict)
    (default_toolshed_url : List Char) (require_tool_panel_info : Bool)
    (d1 d2 d3 : PyVal) (force : Bool) :
    ((dictGet tool "name" = Option.none ∨ dictGet tool "owner" = Option.none) →
      isKeyError (complete_repo_information catalog tool default_toolshed_url
        require_tool_panel_info d1 d2 d3 force) = true)
    ∧ (∀ nameV ownerV out,
        dictGet tool "name" = some nameV → dictGet tool "owner" = some ownerV →
        complete_repo_information catalog tool default_toolshed_url
          require_tool_panel_info d1 d2 d3 force = Except.ok out →
        dictGet out "name" = some nameV ∧ dictGet out "owner" = some ownerV) := by
  constructor
  · intro h
    cases hn : dictGet tool "name" with
    | none => simp [complete_repo_information, hn, isKeyError]
    | some nameV =>
        rcases h with h | h
        · rw [hn] at h; cases h
        · simp [complete_repo_information, hn, h, isKeyError]
  · intro nameV ownerV out hname howner hout
    simp only [complete_repo_information, hname, howner] at hout
    cases hp : panel_check require_tool_panel_info
        (dictGetD tool "tool_panel_section_id" PyVal.none)
        (dictGetD tool "tool_panel_section_label" PyVal.none) nameV with
    | error e => simp [hp] at hout
    | ok u0 =>
        simp only [hp] at hout
        cases hurl : dictGetD tool "tool_shed_url" (PyVal.str default_toolshed_url) with
        | str u =>
            simp only [hurl] at hout
            cases hg : get_changeset_revisions catalog
                (dictSet (dictSet (dictSet (dictSet (dictSet (dictSet []
                  "name" nameV) "owner" ownerV)
                  "tool_panel_section_id" (dictGetD tool "tool_panel_section_id" PyVal.none))
                  "tool_panel_section_label" (dictGetD tool "tool_panel_section_label" PyVal.none))
                  "tool_shed_url" (PyVal.str (format_tool_shed_url u)))
                  "changeset_revision" (dictGetD tool "changeset_revision" PyVal.none))
                force with
            | error e => simp [hg] at hout
            | ok p =>
                obtain ⟨repo2, cnt⟩ := p
                simp only [hg, Except.ok.injEq] at hout
                subst hout
                constructor
                · rw [dictGet_set_ne _ _ _ _ (by decide), dictGet_set_ne _ _ _ _ (by decide),
                    dictGet_set_ne _ _ _ _ (by decide)]
                  rw [get_changeset_revisions_preserves catalog _ force repo2 cnt
                    "name" (by decide) hg]
                  simp [dictSet, dictGet]
                · rw [dictGet_set_ne _ _ _ _ (by decide), dictGet_set_ne _ _ _ _ (by decide),
                    dictGet_set_ne _ _ _ _ (by decide)]
                  rw [get_changeset_revisions_preserves catalog _ force repo2 cnt
                    "owner" (by decide) hg]
                  simp [dictSet, dictGet]
        | none => simp [hurl] at hout
        | bool b => simp [hurl] at hout
        | int n => simp [hurl] at hout
        | list l => simp [hurl] at hout

/-- Witness for C8 at concrete inputs: an empty tool dict raises KeyError; a
tool with name and owner yields a repository dict carrying them unchanged. -/
theorem C8_name_owner_required_witness :
    isKeyError (complete_repo_information exCatalogZ [] ['x'] false
      PyVal.none PyVal.none PyVal.none false) = true
    ∧ dictGet exC8out "name" = some (PyVal.str ['n'])
    ∧ dictGet exC8out "owner" = some (PyVal.str ['o']) :=
  ⟨(C8_name_owner_required exCatalogZ [] ['x'] false
      PyVal.none PyVal.none PyVal.none false).1 (Or.inl rfl),
   ((C8_name_owner_required exCatalogZ exC8tool
      ['h', 't', 't', 'p', 's', ':', '/', '/', 'x', '/'] false
      (PyVal.bool true) (PyVal.bool false) (PyVal.bool false) false).2
      (PyVal.str ['n']) (PyVal.str ['o']) exC8out rfl rfl rfl).1,
   ((C8_name_owner_required exCatalogZ exC8tool
      ['h', 't', 't', 'p', 's', ':', '/', '/', 'x', '/'] false
      (PyVal.bool true) (PyVal.bool false) (PyVal.bool false) false).2
      (PyVal.str ['n']) (PyVal.str ['o']) exC8out rfl rfl rfl).2⟩

-- ### Lemmas about verify_tool_keep_history

theorem buildJobData_spec (itor : Interactor) (a b : PyVal) (ti : Nat) (t1 t2 : Int)
    (inp js : PyVal) (joe : List PyVal) (te : Option RunErr) :
    dictGet (buildJobData itor a b ti t1 t2 inp js joe te) "tool_id" = some a
    ∧ dictGet (buildJobData itor a b ti t1 t2 inp js joe te) "tool_version" = some b
    ∧ dictGet (buildJobData itor a b ti t1 t2 inp js joe te) "test_index"
        = some (PyVal.int (Int.ofNat ti))
    ∧ dictGet (buildJobData itor a b ti t1 t2 inp js joe te) "time_seconds"
        = some (PyVal.int (t2 - t1))
    ∧ dictGet (buildJobData itor a b ti t1 t2 inp js joe te) "status"
        = some (match te with
            | Option.none => if joe.isEmpty then statusSuccess else statusFailure
            | some _ => statusError)
    ∧ dictContains (buildJobData itor a b ti t1 t2 inp js joe te) "execution_problem"
        = te.isSome
    ∧ dictContains (buildJobData itor a b ti t1 t2 inp js joe te) "output_problems"
        = !joe.isEmpty := by
  by_cases h1 : isNoneV inp = true <;> by_cases h2 : isNoneV js = true <;>
    by_cases h3 : joe.isEmpty = true <;> cases te <;>
      simp [buildJobData, h1, h2, h3, dictGet, dictSet, dictContains]

theorem verify_registered_eq (itor : Interactor) (tool_id : PyVal) (register : Bool)
    (test_index : Nat) (tool_version maxseconds : PyVal)
    (tool_test_dicts : Option (List Dict)) (begin_time end_time : Int) (d : Dict)
    (hidx : (selectedTestDicts itor tool_test_dicts)[test_index]? = some d)
    (hdef : itor.handle_def_errors = Except.ok ()) :
    (verify_tool_keep_history itor tool_id register test_index tool_version maxseconds
        tool_test_dicts begin_time end_time).registered
      = if register then
          [buildJobData itor tool_id tool_version test_index begin_time end_time
            (verifyCore itor (itor.expect_failure_of (setdefaultMax d maxseconds))).tool_inputs
            (verifyCore itor (itor.expect_failure_of (setdefaultMax d maxseconds))).job_stdio
            (verifyCore itor
              (itor.expect_failure_of (setdefaultMax d maxseconds))).job_output_exceptions
            (verifyCore itor
              (itor.expect_failure_of (setdefaultMax d maxseconds))).tool_execution_exception]
        else [] := by
  simp only [verify_tool_keep_history, hidx, hdef]

theorem verify_trace_eq (itor : Interactor) (tool_id : PyVal) (register : Bool)
    (test_index : Nat) (tool_version maxseconds : PyVal)
    (tool_test_dicts : Option (List Dict)) (begin_time end_time : Int) (d : Dict)
    (hidx : (selectedTestDicts itor tool_test_dicts)[test_index]? = some d)
    (hdef : itor.handle_def_errors = Except.ok ()) :
    (verify_tool_keep_history itor tool_id register test_index tool_version maxseconds
        tool_test_dicts begin_time end_time).trace
      = (verifyCore itor (itor.expect_failure_of (setdefaultMax d maxseconds))).trace
        ++ (if register then [Event.registerCall] else []) := by
  simp only [verify_tool_keep_history, hidx, hdef]

theorem verify_ttds_out_cons (itor : Interactor) (tool_id : PyVal) (register : Bool)
    (test_index : Nat) (tool_version maxseconds : PyVal) (x d : Dict) (xs : List Dict)
    (begin_time end_time : Int)
    (hidx : (x :: xs)[test_index]? = some d) :
    (verify_tool_keep_history itor tool_id register test_index tool_version maxseconds
        (some (x :: xs)) begin_time end_time).tool_test_dicts_out
      = some ((x :: xs).set test_index (setdefaultMax d maxseconds)) := by
  have hsel : selectedTestDicts itor (some (x :: xs)) = x :: xs := rfl
  cases hdef : itor.handle_def_errors with
  | error m => simp [verify_tool_keep_history, hsel, hidx, hdef]
  | ok u => simp [verify_tool_keep_history, hsel, hidx, hdef]

theorem verifyCore_trace_cases (itor : Interactor) (eb : Bool) :
    (verifyCore itor eb).trace = [Event.stageCall]
    ∨ (verifyCore itor eb).trace = [Event.stageCall, Event.runCall]
    ∨ (verifyCore itor eb).trace
        = [Event.stageCall, Event.runCall, Event.verifyCall] := by
  cases hs : itor.stage_data with
  | error m => simp [verifyCore, hs]
  | ok u =>
      cases hr : itor.run_tool with
      | error e =>
          cases e with
          | runToolException i =>
              by_cases heb : eb = true <;> simp [verifyCore, hs, hr, heb]
          | otherError m => simp [verifyCore, hs, hr]
      | ok resp =>
          by_cases ha : (resp.outputs.isEmpty && resp.output_collections.isEmpty) = true
          · simp [verifyCore, hs, hr, ha]
          · cases hv : itor.verify_outputs with
            | ok js => simp [verifyCore, hs, hr, ha, hv]
            | error ve => cases ve <;> simp [verifyCore, hs, hr, ha, hv]

theorem verifyCore_trace_stage_err (itor : Interactor) (eb : Bool) (msg : String)
    (h : itor.stage_data = Except.error msg) :
    (verifyCore itor eb).trace = [Event.stageCall] := by
  simp [verifyCore, h]

theorem verifyCore_trace_stage_ok (itor : Interactor) (eb : Bool)
    (h : itor.stage_data = Except.ok ()) :
    (verifyCore itor eb).trace = [Event.stageCall, Event.runCall]
    ∨ (verifyCore itor eb).trace
        = [Event.stageCall, Event.runCall, Event.verifyCall] := by
  cases hr : itor.run_tool with
  | error e =>
      cases e with
      | runToolException i =>
          by_cases heb : eb = true <;> simp [verifyCore, h, hr, heb]
      | otherError m => simp [verifyCore, h, hr]
  | ok resp =>
      by_cases ha : (resp.outputs.isEmpty && resp.output_collections.isEmpty) = true
      · simp [verifyCore, h, hr, ha]
      · cases hv : itor.verify_outputs with
        | ok js => simp [verifyCore, h, hr, ha, hv]
        | error ve => cases ve <;> simp [verifyCore, h, hr, ha, hv]

theorem verifyCore_trace_run_err (itor : Interactor) (eb : Bool) (e : RunErr)
    (h : itor.run_tool = Except.error e) :
    (verifyCore itor eb).trace = [Event.stageCall]
    ∨ (verifyCore itor eb).trace = [Event.stageCall, Event.runCall] := by
  cases hs : itor.stage_data with
  | error m => simp [verifyCore, hs]
  | ok u =>
      cases e with
      | runToolException i =>
          by_cases heb : eb = true <;> simp [verifyCore, hs, h, heb]
      | otherError m => simp [verifyCore, hs, h]

theorem verifyCore_te_of_run_err (itor : Interactor) (eb : Bool) (e : RunErr)
    (hs : itor.stage_data = Except.ok ()) (h : itor.run_tool = Except.error e) :
    (verifyCore itor eb).tool_execution_exception = some e := by
  cases e with
  | runToolException i =>
      by_cases heb : eb = true <;> simp [verifyCore, hs, h, heb]
  | otherError m => simp [verifyCore, hs, h]

theorem verifyCore_te_of_run_ok (itor : Interactor) (eb : Bool) (resp : ToolResponse)
    (h : itor.run_tool = Except.ok resp) :
    (verifyCore itor eb).tool_execution_exception = Option.none := by
  cases hs : itor.stage_data with
  | error m => simp [verifyCore, hs]
  | ok u =>
      by_cases ha : (resp.outputs.isEmpty && resp.output_collections.isEmpty) = true
      · simp [verifyCore, hs, h, ha]
      · cases hv : itor.verify_outputs with
        | ok js => simp [verifyCore, hs, h, ha, hv]
        | error ve => cases ve <;> simp [verifyCore, hs, h, ha, hv]

theorem verifyCore_joe_of_jobOutputs (itor : Interactor) (eb : Bool)
    (resp : ToolResponse) (js : PyVal) (excs : List PyVal)
    (hs : itor.stage_data = Except.ok ()) (hr : itor.run_tool = Except.ok resp)
    (ha : (resp.outputs.isEmpty && resp.output_collections.isEmpty) = false)
    (hv : itor.verify_outputs = Except.error (VerifyErr.jobOutputsError js excs)) :
    (verifyCore itor eb).job_output_exceptions = excs := by
  simp [verifyCore, hs, hr, ha, hv]

theorem verifyCore_joe_of_verify_other (itor : Interactor) (eb : Bool)
    (resp : ToolResponse) (m : String)
    (hs : itor.stage_data = Except.ok ()) (hr : itor.run_tool = Except.ok resp)
    (ha : (resp.outputs.isEmpty && resp.output_collections.isEmpty) = false)
    (hv : itor.verify_outputs = Except.error (VerifyErr.otherError m)) :
    (verifyCore itor eb).job_output_exceptions = [PyVal.str m.toList] := by
  simp [verifyCore, hs, hr, ha, hv]

-- ### Claim theorems for verify_tool_keep_history (C3, C5, C7)

/-- Counterexample to C3 as stated: with `register_job_data` supplied but
`test_index` out of range of the supplied test list, the IndexError raised
while selecting the test propagates before the try-block, and
`register_job_data` is never called. -/
theorem C3_register_job_data_counterexample :
    (verify_tool_keep_history exItor PyVal.none true 1 PyVal.none (PyVal.int 5)
        (some [[]]) 0 1).registered = []
    ∧ (verify_tool_keep_history exItor PyVal.none true 1 PyVal.none (PyVal.int 5)
        (some [[]]) 0 1).result = Except.error PyExc.indexError :=
  ⟨rfl, rfl⟩

/-- C3 amended: provided the test is found and validated (the selected test
list has an entry at `test_index` and `_handle_def_errors` does not raise; a
JobOutputsError is assumed to carry a non-empty exception list), supplying
`register_job_data` leads to exactly one record — also when staging, tool
execution or output verification raises — containing tool_id, tool_version,
test_index and the elapsed time; its status is `error` when tool execution
raised, `failure` when output verification raised, `success` when no
exception was recorded, and a recorded execution problem forces `error`. -/
theorem C3_register_job_data_amended (itor : Interactor)
    (tool_id tool_version maxseconds : PyVal) (test_index : Nat)
    (tool_test_dicts : Option (List Dict)) (begin_time end_time : Int) (d : Dict)
    (hidx : (selectedTestDicts itor tool_test_dicts)[test_index]? = some d)
    (hdef : itor.handle_def_errors = Except.ok ())
    (hjoe : ∀ js excs,
      itor.verify_outputs = Except.error (VerifyErr.jobOutputsError js excs) →
      excs ≠ []) :
    (verify_tool_keep_history itor tool_id true test_index tool_version maxseconds
        tool_test_dicts begin_time end_time).registered.length = 1
    ∧ ∀ jd, jd ∈ (verify_tool_keep_history itor tool_id true test_index tool_version
        maxseconds tool_test_dicts begin_time end_time).registered →
        dictGet jd "tool_id" = some tool_id
        ∧ dictGet jd "tool_version" = some tool_version
        ∧ dictGet jd "test_index" = some (PyVal.int (Int.ofNat test_index))
        ∧ dictGet jd "time_seconds" = some (PyVal.int (end_time - begin_time))
        ∧ (∀ e, itor.stage_data = Except.ok () → itor.run_tool = Except.error e →
            dictGet jd "status" = some statusError)
        ∧ (∀ resp ve, itor.stage_data = Except.ok () →
            itor.run_tool = Except.ok resp →
            (resp.outputs.isEmpty && resp.output_collections.isEmpty) = false →
            itor.verify_outputs = Except.error ve →
            dictGet jd "status" = some statusFailure)
        ∧ (dictContains jd "execution_problem" = false →
            dictContains jd "output_problems" = false →
            dictGet jd "status" = some statusSuccess)
        ∧ (dictContains jd "execution_problem" = true →
            dictGet jd "status" = some statusError) := by
  have hreg := verify_registered_eq itor tool_id true test_index tool_version maxseconds
    tool_test_dicts begin_time end_time d hidx hdef
  rw [if_pos rfl] at hreg
  constructor
  · rw [hreg]
    rfl
  · intro jd hjd
    rw [hreg] at hjd
    have hjd2 := List.mem_singleton.mp hjd
    subst hjd2
    obtain ⟨g1, g2, g3, g4, g5, g6, g7⟩ := buildJobData_spec itor tool_id tool_version
      test_index begin_time end_time
      (verifyCore itor (itor.expect_failure_of (setdefaultMax d maxseconds))).tool_inputs
      (verifyCore itor (itor.expect_failure_of (setdefaultMax d maxseconds))).job_stdio
      (verifyCore itor
        (itor.expect_failure_of (setdefaultMax d maxseconds))).job_output_exceptions
      (verifyCore itor
        (itor.expect_failure_of (setdefaultMax d maxseconds))).tool_execution_exception
    refine ⟨g1, g2, g3, g4, ?_, ?_, ?_, ?_⟩
    · intro e hs hr
      rw [g5, verifyCore_te_of_run_err itor _ e hs hr]
    · intro resp ve hs hr ha hv
      cases ve with
      | jobOutputsError js excs =>
          have hne := hjoe js excs hv
          have hie : excs.isEmpty = false := by
            cases excs with
            | nil => exact absurd rfl hne
            | cons y ys => rfl
          rw [g5, verifyCore_te_of_run_ok itor _ resp hr,
            verifyCore_joe_of_jobOutputs itor _ resp js excs hs hr ha hv]
          simp [hie]
      | otherError m =>
          rw [g5, verifyCore_te_of_run_ok itor _ resp hr,
            verifyCore_joe_of_verify_other itor _ resp m hs hr ha hv]
          simp
    · intro h1 h2
      have hte : (verifyCore itor
          (itor.expect_failure_of (setdefaultMax d maxseconds))).tool_execution_exception
          = Option.none := by
        cases hte2 : (verifyCore itor
            (itor.expect_failure_of (setdefaultMax d maxseconds))).tool_execution_exception
        · rfl
        · rw [g6, hte2] at h1
          simp at h1
      by_cases hje : (verifyCore itor
          (itor.expect_failure_of
            (setdefaultMax d maxseconds))).job_output_exceptions.isEmpty = true
      · rw [g5, hte, hje]
        rfl
      · have hje2 : (verifyCore itor
            (itor.expect_failure_of
              (setdefaultMax d maxseconds))).job_output_exceptions.isEmpty = false := by
          cases hje3 : (verifyCore itor
              (itor.expect_failure_of
                (setdefaultMax d maxseconds))).job_output_exceptions.isEmpty
          · rfl
          · exact absurd hje3 hje
        rw [g7, hje2] at h2
        simp at h2
    · intro h1
      rcases Option.eq_none_or_eq_some ((verifyCore itor
          (itor.expect_failure_of
            (setdefaultMax d maxseconds))).tool_execution_exception) with hte | ⟨e, hte⟩
      · rw [g6, hte] at h1
        simp at h1
      · rw [g5, hte]

/-- Witness for the amended C3: a fully successful concrete run registers
exactly one record. -/
theorem C3_register_job_data_amended_witness :
    (verify_tool_keep_history exItor PyVal.none true 0 PyVal.none (PyVal.int 5)
        (some [[]]) 0 1).registered.length = 1 :=
  (C3_register_job_data_amended exItor PyVal.none PyVal.none (PyVal.int 5) 0
    (some [[]]) 0 1 [] rfl rfl
    (fun js excs h => by
      have h2 : Except.ok PyVal.none
          = Except.error (VerifyErr.jobOutputsError js excs) := h
      exact Except.noConfusion h2)).1

/-- Counterexample to C5 as stated: `get_changeset_revisions` adds the
resolved `changeset_revision` to the caller's repository dict in place (the
returned dict is the argument object), and `verify_tool_keep_history` adds a
default `maxseconds` to the caller's selected test dict in place. -/
theorem C5_no_mutation_counterexample :
    dictGet exRepoUnpinned "changeset_revision" = Option.none
    ∧ get_changeset_revisions exCatalogZ exRepoUnpinned false
      = Except.ok ([("name", PyVal.str ['n']), ("owner", PyVal.str ['o']),
          ("tool_shed_url", PyVal.str ['h', 't', 't', 'p', 's', ':', '/', '/', 'x', '/']),
          ("changeset_revision", PyVal.str ['z'])], 1)
    ∧ (verify_tool_keep_history exItor PyVal.none false 0 PyVal.none (PyVal.int 7)
        (some [[]]) 0 1).tool_test_dicts_out = some [[("maxseconds", PyVal.int 7)]] :=
  ⟨rfl, rfl, rfl⟩

/-- C5 amended: `complete_repo_information` and `flatten_repo_info` build
fresh dicts, but the module does mutate caller data in two places:
`get_changeset_revisions` assigns the resolved revision into the passed dict
in place, and `verify_tool_keep_history` inserts a default `maxseconds` into
the selected element of the caller's `tool_test_dicts` in place. -/
theorem C5_no_mutation_amended :
    (∀ (catalog : Catalog) (repository : Dict) (force : Bool) (url nm ow rev : PyVal),
      dictGet repository "changeset_revision" = Option.none →
      dictGet repository "tool_shed_url" = some url →
      dictGet repository "name" = some nm →
      dictGet repository "owner" = some ow →
      (catalog url nm ow).getLast? = some rev →
      get_changeset_revisions catalog repository force
          = Except.ok (dictSet repository "changeset_revision" rev, 1)
        ∧ dictGet (dictSet repository "changeset_revision" rev) "changeset_revision"
          = some rev)
    ∧ (∀ (itor : Interactor) (tool_id tool_version maxseconds : PyVal) (register : Bool)
        (x d : Dict) (xs : List Dict) (test_index : Nat) (begin_time end_time : Int),
        (x :: xs)[test_index]? = some d →
        (verify_tool_keep_history itor tool_id register test_index tool_version
            maxseconds (some (x :: xs)) begin_time end_time).tool_test_dicts_out
          = some ((x :: xs).set test_index (setdefaultMax d maxseconds))) := by
  constructor
  · intro catalog repository force url nm ow rev habs h2 h3 h4 h5
    refine ⟨get_changeset_revisions_unpinned catalog repository force url nm ow rev
      (by simp [dictGetD, habs, isNoneV]) h2 h3 h4 h5, dictGet_set_self _ _ _⟩
  · intro itor tool_id tool_version maxseconds register x d xs test_index bt et hidx
    exact verify_ttds_out_cons itor tool_id register test_index tool_version maxseconds
      x d xs bt et hidx

/-- Witness for the amended C5 at concrete inputs. -/
theorem C5_no_mutation_amended_witness :
    get_changeset_revisions exCatalogZ exRepoUnpinned false
      = Except.ok (dictSet exRepoUnpinned "changeset_revision" (PyVal.str ['z']), 1)
    ∧ (verify_tool_keep_history exItor PyVal.none true 0 PyVal.none (PyVal.int 7)
        (some [[]]) 0 1).tool_test_dicts_out
      = some ([([] : Dict)].set 0 (setdefaultMax [] (PyVal.int 7))) :=
  ⟨(C5_no_mutation_amended.1 exCatalogZ exRepoUnpinned false
      (PyVal.str ['h', 't', 't', 'p', 's', ':', '/', '/', 'x', '/'])
      (PyVal.str ['n']) (PyVal.str ['o']) (PyVal.str ['z']) rfl rfl rfl rfl rfl).1,
   C5_no_mutation_amended.2 exItor PyVal.none PyVal.none (PyVal.int 7) true [] [] [] 0 0 1 rfl⟩

/-- C7: provided the test is found and validated, a run drives exactly one
tool test in a fixed order: staging comes first; when staging succeeds the
tool is invoked exactly once right after; outputs are verified only after a
successful invocation (never when the run raised, in particular not after an
expected failure); and when `register_job_data` is supplied the structured
record is produced last. -/
theorem C7_single_test_order (itor : Interactor)
    (tool_id tool_version maxseconds : PyVal) (register : Bool) (test_index : Nat)
    (tool_test_dicts : Option (List Dict)) (begin_time end_time : Int) (d : Dict)
    (hidx : (selectedTestDicts itor tool_test_dicts)[test_index]? = some d)
    (hdef : itor.handle_def_errors = Except.ok ()) :
    ∀ t, t = (verify_tool_keep_history itor tool_id register test_index tool_version
        maxseconds tool_test_dicts begin_time end_time).trace →
      t.head? = some Event.stageCall
      ∧ (itor.stage_data = Except.ok () →
          ∃ rest, t = Event.stageCall :: Event.runCall :: rest)
      ∧ (∀ msg, itor.stage_data = Except.error msg →
          t = Event.stageCall :: (if register then [Event.registerCall] else []))
      ∧ (∀ e, itor.run_tool = Except.error e → Event.verifyCall ∉ t)
      ∧ (Event.verifyCall ∈ t →
          ∃ rest, t = Event.stageCall :: Event.runCall :: Event.verifyCall :: rest)
      ∧ (register = true → t.getLast? = some Event.registerCall)
      ∧ t.count Event.runCall ≤ 1
      ∧ t.count Event.verifyCall ≤ 1 := by
  intro t ht
  have htr := verify_trace_eq itor tool_id register test_index tool_version maxseconds
    tool_test_dicts begin_time end_time d hidx hdef
  rw [htr] at ht
  subst ht
  refine ⟨?_, ?_, ?_, ?_, ?_, ?_, ?_, ?_⟩
  · rcases verifyCore_trace_cases itor
        (itor.expect_failure_of (setdefaultMax d maxseconds)) with h | h | h <;>
      rw [h] <;> rfl
  · intro hso
    rcases verifyCore_trace_stage_ok itor
        (itor.expect_failure_of (setdefaultMax d maxseconds)) hso with h | h <;>
      rw [h]
    · exact ⟨if register then [Event.registerCall] else [], rfl⟩
    · exact ⟨Event.verifyCall :: (if register then [Event.registerCall] else []), rfl⟩
  · intro msg hserr
    rw [verifyCore_trace_stage_err itor _ msg hserr]
    rfl
  · intro e hre
    rcases verifyCore_trace_run_err itor
        (itor.expect_failure_of (setdefaultMax d maxseconds)) e hre with h | h <;>
      rw [h] <;> cases register <;> decide
  · intro hv
    rcases verifyCore_trace_cases itor
        (itor.expect_failure_of (setdefaultMax d maxseconds)) with h | h | h <;>
      rw [h] at hv ⊢
    · cases register <;> simp at hv
    · cases register <;> simp at hv
    · exact ⟨if register then [Event.registerCall] else [], rfl⟩
  · intro hrt
    subst hrt
    rw [if_pos rfl]
    exact List.getLast?_concat _
  · rcases verifyCore_trace_cases itor
        (itor.expect_failure_of (setdefaultMax d maxseconds)) with h | h | h <;>
      rw [h] <;> cases register <;> decide
  · rcases verifyCore_trace_cases itor
        (itor.expect_failure_of (setdefaultMax d maxseconds)) with h | h | h <;>
      rw [h] <;> cases register <;> decide

/-- Witness for C7: on a fully successful concrete run the trace is staging,
run, verification, then the record. -/
theorem C7_single_test_order_witness :
    ([Event.stageCall, Event.runCall, Event.verifyCall,
        Event.registerCall] : List Event).head? = some Event.stageCall :=
  (C7_single_test_order exItor PyVal.none PyVal.none (PyVal.int 5) true 0
    (some [[]]) 0 1 [] rfl rfl
    [Event.stageCall, Event.runCall, Event.verifyCall, Event.registerCall] rfl).1

end ShedTools
